import Mathlib

/-!
Verification of the resilient GitHub API client layer of `gh-cost-center`.

The development shallowly embeds the client layer: the retry/backoff
transport executor, the transient-error classifier, the rate-limit wait
policy, the page-numbered paginator loops (`GetOrgTeams`,
`GetCopilotUsers`), the conflict-recovering cost-center creator, and the
seat-holder deduplication.  Durations are modelled in nanoseconds (the
unit of Go's `time.Duration`), HTTP exchanges as pure functions from the
zero-based attempt index (resp. the page number) to the server's answer,
and fallible operations as `Except` / `Option` values.  Loops that the
source runs unboundedly are given explicit fuel; `none` means the fuel was
exhausted before the loop terminated.
-/

namespace CostCenter

/-! ## Durations and backoff policy -/

/-- Nanoseconds in one second, the base unit of Go `time.Duration`. -/
def nsPerSecond : Nat := 1000000000

/-- Modelled from the spec: the exponential backoff of the Transport
Executor (`Client.backoff` is not under `src/`; only `TestBackoff` is).
The wait before retry number `attempt` (zero-based) is
`base * 2^attempt` with `base = 1` second, no jitter. -/
def backoff (attempt : Nat) : Nat := nsPerSecond * 2 ^ attempt

/-- Modelled from the spec: the fixed default rate-limit wait used when the
reset header is missing or unparseable (`rateLimitFallback` is not under
`src/`; the spec fixes no numeric value, one minute is used here). -/
def rateLimitFallback : Int := 60 * (nsPerSecond : Int)

/-- Digit value of a decimal character. -/
def digitVal (c : Char) : Option Nat :=
  if '0' ≤ c && c ≤ '9' then some (c.toNat - '0'.toNat) else none

/-- Accumulate a base-10 natural from a character list; `none` on any
non-digit. -/
def digitsToNatAux (acc : Nat) : List Char → Option Nat
  | [] => some acc
  | c :: cs =>
    match digitVal c with
    | none => none
    | some d => digitsToNatAux (acc * 10 + d) cs

/-- Base-10 integer parse of the reset header, mirroring Go
`strconv.ParseInt(s, 10, 64)`: optional leading minus, then at least one
digit, nothing else. -/
def parseUnixSeconds (s : String) : Option Int :=
  match s.toList with
  | [] => none
  | '-' :: cs =>
    match cs with
    | [] => none
    | _ => (digitsToNatAux 0 cs).map (fun n => -(n : Int))
  | cs => (digitsToNatAux 0 cs).map (fun n => (n : Int))

/-- Modelled from the spec: the rate-limit wait computation
(`Client.rateLimitWait` is not under `src/`; only `TestRateLimitWait` is).
The reset header carries a Unix timestamp in seconds; the wait is
`reset - now` floored at one second, and the fixed fallback when the
header is absent or does not parse as an integer. -/
def rateLimitWait (resetHeader : Option String) (nowUnix : Int) : Int :=
  match resetHeader with
  | none => rateLimitFallback
  | some h =>
    match parseUnixSeconds h with
    | none => rateLimitFallback
    | some reset =>
      let wait := (reset - nowUnix) * (nsPerSecond : Int)
      if wait < (nsPerSecond : Int) then (nsPerSecond : Int) else wait

/-! ## Transient error classifier -/

/-- Modelled from the spec: the fixed substrings recognized as transient by
`isTransient` (not under `src/`; only `TestIsTransient` is).  The spec's
"unexpected end of stream" is Go's `unexpected EOF`, the string the
repository's own test feeds the classifier. -/
def transientSubstrings : List String :=
  ["connection refused", "connection reset", "i/o timeout",
   "handshake timeout", "unexpected EOF"]

/-- Boolean substring search on character lists, mirroring Go
`strings.Contains(haystack, needle)`. -/
def hasSub (need : List Char) : List Char → Bool
  | [] => need.isEmpty
  | c :: rest => need.isPrefixOf (c :: rest) || hasSub need rest

/-- String containment: `strContains s sub` is true when `sub` occurs as a
contiguous substring of `s`. -/
def strContains (s sub : String) : Bool := hasSub sub.toList s.toList

/-- Modelled from the spec: the transient-error classifier (`isTransient`
is not under `src/`).  A `nil` error (`none`) is not transient; otherwise
the error text is matched against the fixed substring list. -/
def isTransient : Option String → Bool
  | none => false
  | some msg => transientSubstrings.any (fun sub => strContains msg sub)

/-! ## Transport executor -/

/-- A server answer to one HTTP attempt: status code and raw body text. -/
structure HTTPResponse where
  status : Nat
  body : String
  deriving DecidableEq

/-- Terminal outcome of one logical `doJSON` call: success with the
response body, or a structured API error carrying status code and body.
Both record the total number of HTTP attempts made. -/
inductive DoResult where
  | ok (body : String) (attempts : Nat)
  | apiError (status : Nat) (body : String) (attempts : Nat)
  deriving DecidableEq

/-- Successful HTTP statuses (2xx). -/
def isSuccessStatus (s : Nat) : Bool := 200 ≤ s && s < 300

/-- Retryable HTTP statuses: 429 (rate limited) and 5xx (server error). -/
def isRetryableStatus (s : Nat) : Bool := s == 429 || (500 ≤ s && s < 600)

/-- Modelled from the spec: the retry loop of `Client.doJSON` (not under
`src/`; only its tests are).  `respond attempt` is the server's answer to
the attempt with that zero-based index; `remaining` counts the attempts
still allowed.  A 2xx answer succeeds; a 429/5xx answer is retried while
attempts remain and becomes a terminal `apiError` on exhaustion; any other
status is terminal at once. -/
def doJSONAux (respond : Nat → HTTPResponse) : Nat → Nat → DoResult
  | 0, attempt => .apiError 0 "" attempt
  | remaining + 1, attempt =>
    let r := respond attempt
    if isSuccessStatus r.status then .ok r.body (attempt + 1)
    else if isRetryableStatus r.status then
      if remaining = 0 then .apiError r.status r.body (attempt + 1)
      else doJSONAux respond remaining (attempt + 1)
    else .apiError r.status r.body (attempt + 1)

/-- Modelled from the spec: one logical `doJSON` call with at most
`maxRetries` attempts, starting at attempt 0. -/
def doJSON (respond : Nat → HTTPResponse) (maxRetries : Nat) : DoResult :=
  doJSONAux respond maxRetries 0

/-! ## Conflict-recovering cost center creation -/

/-- The fixed-format token preceding the recoverable UUID in a 409 body,
lower-cased for case-insensitive matching. -/
def conflictToken : List Char := "existing cost center uuid:".toList

/-- Hexadecimal digit, either case. -/
def isHexChar (c : Char) : Bool :=
  ('0' ≤ c && c ≤ '9') || ('a' ≤ c && c ≤ 'f') || ('A' ≤ c && c ≤ 'F')

/-- UUID shape: 36 characters, hyphens at offsets 8, 13, 18, 23 and hex
digits everywhere else. -/
def isUUIDShape (cs : List Char) : Bool :=
  cs.length == 36 && (List.range 36).all (fun i =>
    if i == 8 || i == 13 || i == 18 || i == 23 then cs.getD i ' ' == '-'
    else isHexChar (cs.getD i ' '))

/-- Skip the run of blanks following the conflict token. -/
def skipSpaces : List Char → List Char
  | ' ' :: rest => skipSpaces rest
  | cs => cs

/-- Case-insensitive check that `tok` (already lower-cased) starts at the
head of `cs`. -/
def tokenAt (tok cs : List Char) : Bool :=
  (cs.take tok.length).map Char.toLower == tok

/-- Try to read `<token> <spaces> <uuid>` at the head of `cs`, returning
the UUID exactly as written (its case preserved). -/
def uuidAfterToken (cs : List Char) : Option String :=
  let rest := skipSpaces (cs.drop conflictToken.length)
  let cand := rest.take 36
  if isUUIDShape cand then some (String.mk cand) else none

/-- Scan every position of the body for the conflict pattern. -/
def findConflictUUID : List Char → Option String
  | [] => none
  | c :: cs =>
    if tokenAt conflictToken (c :: cs) then
      match uuidAfterToken (c :: cs) with
      | some u => some u
      | none => findConflictUUID cs
    else findConflictUUID cs

/-- Modelled from the spec: the conflict-body pattern `uuidFromConflictRe`
(not under `src/`; only `TestUUIDFromConflictRe` is): the token
`Existing cost center UUID:` matched case-insensitively, followed by a
UUID-shaped string, anywhere in the body. -/
def extractConflictUUID (body : String) : Option String :=
  findConflictUUID body.toList

/-- Modelled from the spec: `Client.CreateCostCenter` (not under `src/`;
only its tests are).  `decodeID` stands for decoding the created resource
id out of a successful response body.  A terminal 409 whose body matches
the conflict pattern is converted into success carrying the recovered
UUID; every other terminal error propagates unchanged. -/
def createCostCenter (r : DoResult) (decodeID : String → String) :
    Except (Nat × String) String :=
  match r with
  | .ok body _ => .ok (decodeID body)
  | .apiError s body _ =>
    if s = 409 then
      match extractConflictUUID body with
      | some id => .ok id
      | none => .error (s, body)
    else .error (s, body)

/-! ## Paginator

Embeds the page loop shared by `GetOrgTeams`, `GetOrgTeamMembers`,
`GetEnterpriseTeams`, `GetEnterpriseTeamMembers`
(`src/internal/github/teams.go`) and `GetOrgReposWithProperties`:
start at page 1; a zero-item page stops without appending; otherwise
append and stop when the page is short; else increment the page. -/

/-- Page size used by every listing in the source (`const perPage = 100`). -/
def perPage : Nat := 100

/-- The paginator loop.  `fetch page` is the decoded item list of that page
(or the terminal error of its `doJSON` call); `acc` and `reqs` accumulate
items and page requests; `fuel` bounds the number of iterations (`none`
means the fuel ran out, which no terminating endpoint reaches). -/
def paginateAux {E α : Type} (fetch : Nat → Except E (List α)) (size : Nat) :
    Nat → Nat → List α → Nat → Option (Except E (List α × Nat))
  | 0, _, _, _ => none
  | fuel + 1, page, acc, reqs =>
    match fetch page with
    | .error e => some (.error e)
    | .ok items =>
      if items.length = 0 then some (.ok (acc, reqs + 1))
      else if items.length < size then some (.ok (acc ++ items, reqs + 1))
      else paginateAux fetch size fuel (page + 1) (acc ++ items) (reqs + 1)

/-- A whole paginated listing: pages from 1, empty accumulator, returning
the collected items together with the number of page requests made. -/
def paginate {E α : Type} (fetch : Nat → Except E (List α)) (size : Nat)
    (fuel : Nat) : Option (Except E (List α × Nat)) :=
  paginateAux fetch size fuel 1 [] 0

/-- A GitHub team, from `src/internal/github/teams.go`. -/
structure Team where
  id : Int
  name : String
  slug : String
  description : String
  deriving DecidableEq

/-- `Client.GetOrgTeams` (`src/internal/github/teams.go`): the paginated
team listing with page size 100.  The items of the result are exactly the
concatenation of the decoded pages. -/
def GetOrgTeams {E : Type} (fetch : Nat → Except E (List Team)) (fuel : Nat) :
    Option (Except E (List Team × Nat)) :=
  paginate fetch perPage fuel

/-! ## Copilot seat holders -/

/-- The `assignee` object of a Copilot seat (`src/unnamed/part_000`). -/
structure Assignee where
  login : String
  id : Int
  name : String
  email : String
  type : String
  deriving DecidableEq

/-- One seat entry of the billing seats endpoint (`src/unnamed/part_000`). -/
structure SeatEntry where
  assignee : Assignee
  createdAt : String
  updatedAt : String
  pendingCancellationDate : String
  lastActivityAt : String
  lastActivityEditor : String
  plan : String
  assigningTeam : Option String
  deriving DecidableEq

/-- The JSON envelope of the billing seats endpoint. -/
structure SeatsResponse where
  seats : List SeatEntry
  totalSeats : Int
  deriving DecidableEq

/-- A Copilot seat holder (`src/unnamed/part_000`).  The dynamic
`assigning_team` field (object or null in JSON) is carried opaquely. -/
structure CopilotUser where
  login : String
  id : Int
  name : String
  email : String
  type : String
  createdAt : String
  updatedAt : String
  pendingCancellationDate : String
  lastActivityAt : String
  lastActivityEditor : String
  plan : String
  assigningTeam : Option String
  deriving DecidableEq

/-- The per-seat conversion done inside the `GetCopilotUsers` page loop
(`src/unnamed/part_000`, lines 73-88). -/
def seatToUser (s : SeatEntry) : CopilotUser :=
  { login := s.assignee.login
    id := s.assignee.id
    name := s.assignee.name
    email := s.assignee.email
    type := s.assignee.type
    createdAt := s.createdAt
    updatedAt := s.updatedAt
    pendingCancellationDate := s.pendingCancellationDate
    lastActivityAt := s.lastActivityAt
    lastActivityEditor := s.lastActivityEditor
    plan := s.plan
    assigningTeam := s.assigningTeam }

/-- The page loop of `GetCopilotUsers` (`src/unnamed/part_000`, lines
62-95): same pagination rule as the teams listing, with the per-seat
conversion applied while appending. -/
def getCopilotUsersAux {E : Type} (fetch : Nat → Except E SeatsResponse) :
    Nat → Nat → List CopilotUser → Option (Except E (List CopilotUser))
  | 0, _, _ => none
  | fuel + 1, page, acc =>
    match fetch page with
    | .error e => some (.error e)
    | .ok resp =>
      if resp.seats.length = 0 then some (.ok acc)
      else
        let acc2 := acc ++ resp.seats.map seatToUser
        if resp.seats.length < perPage then some (.ok acc2)
        else getCopilotUsersAux fetch fuel (page + 1) acc2

/-- The body of `deduplicateUsers` (`src/unnamed/part_000`, lines 106-135):
`seen` is the set of logins already kept; entries with an empty login and
entries whose login was already seen are dropped (the source's duplicate
counters only feed log records and are omitted). -/
def dedupAux (seen : List String) : List CopilotUser → List CopilotUser
  | [] => []
  | u :: us =>
    if u.login == "" then dedupAux seen us
    else if seen.contains u.login then dedupAux seen us
    else u :: dedupAux (u.login :: seen) us

/-- `deduplicateUsers` (`src/unnamed/part_000`): keep the first occurrence
of each non-empty login, in order. -/
def deduplicateUsers (users : List CopilotUser) : List CopilotUser :=
  dedupAux [] users

/-- `Client.GetCopilotUsers` (`src/unnamed/part_000`, lines 54-102): run
the page loop from page 1, then deduplicate by login. -/
def GetCopilotUsers {E : Type} (fetch : Nat → Except E SeatsResponse)
    (fuel : Nat) : Option (Except E (List CopilotUser)) :=
  match getCopilotUsersAux fetch fuel 1 [] with
  | none => none
  | some (.error e) => some (.error e)
  | some (.ok users) => some (.ok (deduplicateUsers users))

/-- A seat entry with the given login and every other field empty, used as
concrete data in witnesses (mirrors the fixtures of the repository's
tests). -/
def mkSeat (login : String) : SeatEntry :=
  { assignee := { login := login, id := 0, name := "", email := "", type := "" }
    createdAt := ""
    updatedAt := ""
    pendingCancellationDate := ""
    lastActivityAt := ""
    lastActivityEditor := ""
    plan := ""
    assigningTeam := none }

/-- A seat holder with the given login and every other field empty, used as
concrete data in witnesses. -/
def mkUser (login : String) : CopilotUser := seatToUser (mkSeat login)

/-! ## Theorems -/

/-- C5: the exponential backoff wait is the deterministic function
`base * 2^attempt` with `base` one second and `attempt` the zero-based
retry index, yielding exactly 1s, 2s, 4s, 8s for attempts 0, 1, 2, 3. -/
theorem c5_backoff_exponential :
    backoff 0 = nsPerSecond ∧ backoff 1 = 2 * nsPerSecond ∧
    backoff 2 = 4 * nsPerSecond ∧ backoff 3 = 8 * nsPerSecond ∧
    ∀ attempt : Nat, backoff attempt = nsPerSecond * 2 ^ attempt := by
  refine ⟨by decide, by decide, by decide, by decide, fun _ => rfl⟩

/-- C5 witness: the backoff at attempt 2 is exactly 4 seconds. -/
theorem c5_backoff_exponential_witness : backoff 2 = 4 * nsPerSecond :=
  c5_backoff_exponential.2.2.1

/-- The boolean substring scan decides contiguous-substring occurrence. -/
theorem hasSub_iff (need hay : List Char) :
    hasSub need hay = true ↔ need <:+: hay := by
  induction hay with
  | nil =>
    simp only [hasSub, List.isEmpty_iff, List.infix_nil]
  | cons c rest ih =>
    simp only [hasSub, Bool.or_eq_true, List.isPrefixOf_iff_prefix, ih,
      List.infix_cons_iff]

/-- C7: the transient-error classifier returns retryable exactly when the
error's description contains one of the fixed transient substrings, and a
`nil` error is classified not transient. -/
theorem c7_transient_classifier :
    isTransient none = false ∧
    ∀ msg : String, isTransient (some msg) = true ↔
      ∃ sub ∈ transientSubstrings, sub.toList <:+: msg.toList := by
  refine ⟨rfl, fun msg => ?_⟩
  simp only [isTransient, List.any_eq_true, strContains, hasSub_iff]

/-- C7 witness: the classifier at the repository's own test vectors. -/
theorem c7_transient_classifier_witness :
    isTransient (some "connection reset by peer") = true ∧
    isTransient none = false := by
  refine ⟨(c7_transient_classifier.2 "connection reset by peer").mpr
    ⟨"connection reset", by decide, ⟨[], " by peer".toList, by decide⟩⟩,
    c7_transient_classifier.1⟩

/-- C6: the rate-limit wait is never below the one-second floor; with a
parseable reset header it is `reset − now` floored at one second (so a
reset already in the past yields exactly one second), and with a missing
or unparseable header it is the fixed fallback. -/
theorem c6_rate_limit_wait :
    (∀ h now, (nsPerSecond : Int) ≤ rateLimitWait h now) ∧
    (∀ s reset now, parseUnixSeconds s = some reset →
      rateLimitWait (some s) now =
        max ((reset - now) * (nsPerSecond : Int)) (nsPerSecond : Int)) ∧
    (∀ s reset now, parseUnixSeconds s = some reset → reset ≤ now →
      rateLimitWait (some s) now = (nsPerSecond : Int)) ∧
    (∀ s now, parseUnixSeconds s = none → rateLimitWait (some s) now = rateLimitFallback) ∧
    (∀ now, rateLimitWait none now = rateLimitFallback) := by
  have hval : ∀ s reset now, parseUnixSeconds s = some reset →
      rateLimitWait (some s) now =
        max ((reset - now) * (nsPerSecond : Int)) (nsPerSecond : Int) := by
    intro s reset now hs
    simp only [rateLimitWait, hs]
    split
    · rename_i hlt
      rw [max_eq_right (le_of_lt hlt)]
    · rename_i hge
      rw [max_eq_left (le_of_not_lt hge)]
  refine ⟨?_, hval, ?_, ?_, fun _ => rfl⟩
  · intro h now
    match h with
    | none =>
      show (nsPerSecond : Int) ≤ rateLimitFallback
      simp only [rateLimitFallback, nsPerSecond]
      omega
    | some s =>
      match hs : parseUnixSeconds s with
      | none =>
        simp only [rateLimitWait, hs, rateLimitFallback, nsPerSecond]
        omega
      | some reset =>
        rw [hval s reset now hs]
        exact le_max_right _ _
  · intro s reset now hs hpast
    rw [hval s reset now hs, max_eq_right]
    have hnp : (0 : Int) < (nsPerSecond : Int) := by
      simp only [nsPerSecond]; omega
    have : (reset - now) * (nsPerSecond : Int) ≤ 0 * (nsPerSecond : Int) :=
      mul_le_mul_of_nonneg_right (by omega) (le_of_lt hnp)
    omega
  · intro s now hs
    simp only [rateLimitWait, hs]

/-- C6 witness: a reset 30 seconds ahead waits 30 seconds, a past reset
waits exactly the one-second floor, an unparseable header falls back. -/
theorem c6_rate_limit_wait_witness :
    rateLimitWait (some "130") 100 = 30 * (nsPerSecond : Int) ∧
    rateLimitWait (some "90") 100 = (nsPerSecond : Int) ∧
    rateLimitWait (some "bad") 100 = rateLimitFallback ∧
    rateLimitWait none 100 = rateLimitFallback := by
  refine ⟨?_, ?_, ?_, c6_rate_limit_wait.2.2.2.2 100⟩
  · rw [c6_rate_limit_wait.2.1 "130" 130 100 (by decide)]
    simp only [nsPerSecond]
    decide
  · exact c6_rate_limit_wait.2.2.1 "90" 90 100 (by decide) (by omega)
  · exact c6_rate_limit_wait.2.2.2.1 "bad" 100 (by decide)

/-- One-step unfolding of the retry loop at a positive remaining count. -/
theorem doJSONAux_succ (respond : Nat → HTTPResponse) (rem att : Nat) :
    doJSONAux respond (rem + 1) att =
      if isSuccessStatus (respond att).status then
        .ok (respond att).body (att + 1)
      else if isRetryableStatus (respond att).status then
        if rem = 0 then
          .apiError (respond att).status (respond att).body (att + 1)
        else doJSONAux respond rem (att + 1)
      else .apiError (respond att).status (respond att).body (att + 1) := rfl

/-- On a response stream whose statuses are all the same retryable,
non-successful status, the executor uses every allowed attempt and ends
with a terminal error carrying that status. -/
theorem doJSONAux_all_retryable (respond : Nat → HTTPResponse) (s : Nat)
    (hs : isSuccessStatus s = false) (hr : isRetryableStatus s = true)
    (hst : ∀ i, (respond i).status = s) :
    ∀ rem, 1 ≤ rem → ∀ att, doJSONAux respond rem att =
      .apiError s ((respond (att + rem - 1)).body) (att + rem) := by
  intro rem
  induction rem with
  | zero => exact fun h => absurd h (by omega)
  | succ r ih =>
    intro _ att
    rw [doJSONAux_succ, hst att, hs, hr]
    simp only [Bool.false_eq_true, if_false, if_true]
    cases r with
    | zero =>
      simp [hst]
    | succ r' =>
      rw [if_neg (Nat.succ_ne_zero r'), ih (by omega) (att + 1)]
      have h1 : att + 1 + (r' + 1) - 1 = att + (r' + 1 + 1) - 1 := by omega
      have h2 : att + 1 + (r' + 1) = att + (r' + 1 + 1) := by omega
      rw [h1, h2]

/-- C1: the Transport Executor makes one HTTP attempt per server response
and retries retryable statuses until success or exhaustion: two 502
answers followed by a 200 succeed with exactly 3 attempts, and a 500 on
every attempt makes exactly `maxRetries` attempts and returns a terminal
error carrying status 500. -/
theorem c1_retry_until_success_or_exhaustion :
    (∀ (respond : Nat → HTTPResponse) (mr : Nat) (b0 b1 b2 : String),
      respond 0 = ⟨502, b0⟩ → respond 1 = ⟨502, b1⟩ → respond 2 = ⟨200, b2⟩ →
      3 ≤ mr → doJSON respond mr = .ok b2 3) ∧
    (∀ (respond : Nat → HTTPResponse) (mr : Nat),
      (∀ i, (respond i).status = 500) → 1 ≤ mr →
      doJSON respond mr = .apiError 500 ((respond (mr - 1)).body) mr) := by
  constructor
  · intro respond mr b0 b1 b2 h0 h1 h2 hmr
    obtain ⟨k, hk⟩ := Nat.le.dest hmr
    have hsf : isSuccessStatus 502 = false := by decide
    have hrt : isRetryableStatus 502 = true := by decide
    have hst : isSuccessStatus 200 = true := by decide
    rw [doJSON, show mr = (k + 2) + 1 by omega, doJSONAux_succ, h0]
    simp only [hsf, hrt, Bool.false_eq_true, if_false, if_true]
    rw [if_neg (by omega : ¬(k + 2 = 0)),
      show k + 2 = (k + 1) + 1 from rfl, doJSONAux_succ,
      show (0 : Nat) + 1 = 1 from rfl, h1]
    simp only [hsf, hrt, Bool.false_eq_true, if_false, if_true]
    rw [if_neg (by omega : ¬(k + 1 = 0)), doJSONAux_succ,
      show (1 : Nat) + 1 = 2 from rfl, h2]
    simp only [hst, if_true]
  · intro respond mr h500 hmr
    rw [doJSON, doJSONAux_all_retryable respond 500 (by decide) (by decide) h500 mr hmr 0]
    rw [show (0 : Nat) + mr - 1 = mr - 1 by omega, show (0 : Nat) + mr = mr by omega]

/-- C1 witness: a concrete 502-502-200 stream succeeds in 3 attempts with
`maxRetries = 5`, and a constant-500 stream with `maxRetries = 5` makes
exactly 5 attempts and surfaces status 500. -/
theorem c1_retry_witness :
    doJSON (fun i => if i ≤ 1 then ⟨502, "bad gateway"⟩ else ⟨200, "ok"⟩) 5 =
      .ok "ok" 3 ∧
    doJSON (fun _ => ⟨500, "internal error"⟩) 5 =
      .apiError 500 "internal error" 5 := by
  constructor
  · exact c1_retry_until_success_or_exhaustion.1 _ 5 "bad gateway" "bad gateway" "ok"
      rfl rfl rfl (by omega)
  · exact c1_retry_until_success_or_exhaustion.2 _ 5 (fun _ => rfl) (by omega)

/-- C2: a 4xx status other than 429 is terminal on the first attempt: the
structured error carries that status code and the body verbatim, and
exactly one attempt is made. -/
theorem c2_non_retryable_4xx (respond : Nat → HTTPResponse) (mr s : Nat)
    (b : String) (h0 : respond 0 = ⟨s, b⟩) (h4 : 400 ≤ s) (h5 : s < 500)
    (hne : s ≠ 429) (hmr : 1 ≤ mr) :
    doJSON respond mr = .apiError s b 1 := by
  obtain ⟨k, hk⟩ := Nat.le.dest hmr
  have hsucc : isSuccessStatus s = false := by
    simp only [isSuccessStatus, Bool.and_eq_false_iff, decide_eq_false_iff_not]
    omega
  have hretry : isRetryableStatus s = false := by
    simp only [isRetryableStatus, Bool.or_eq_false_iff, Bool.and_eq_false_iff,
      beq_eq_false_iff_ne, ne_eq, decide_eq_false_iff_not]
    omega
  rw [doJSON, show mr = k + 1 by omega]
  simp only [doJSONAux, h0, hsucc, hretry, Bool.false_eq_true, if_false]

/-- C2 witness: a single 403 answer with body `forbidden` yields a terminal
403 error with the body preserved, after exactly one attempt. -/
theorem c2_non_retryable_4xx_witness :
    doJSON (fun _ => ⟨403, "forbidden"⟩) 5 = .apiError 403 "forbidden" 1 :=
  c2_non_retryable_4xx _ 5 403 "forbidden" rfl (by omega) (by omega)
    (by omega) (by omega)

/-- C4: a creation ending in a terminal 409 whose body matches the
conflict pattern returns the embedded UUID as a successful result; every
other terminal error — including a 409 whose body does not match —
propagates unchanged; and the spec's example body does match, yielding
that exact UUID. -/
theorem c4_conflict_recovery (decodeID : String → String) :
    (∀ body uuid att, extractConflictUUID body = some uuid →
      createCostCenter (.apiError 409 body att) decodeID = .ok uuid) ∧
    (∀ body att, extractConflictUUID body = none →
      createCostCenter (.apiError 409 body att) decodeID = .error (409, body)) ∧
    (∀ s body att, s ≠ 409 →
      createCostCenter (.apiError s body att) decodeID = .error (s, body)) ∧
    extractConflictUUID
        "Existing cost center UUID: d1e2f3a4-b5c6-7890-abcd-ef1234567890" =
      some "d1e2f3a4-b5c6-7890-abcd-ef1234567890" := by
  refine ⟨?_, ?_, ?_, by decide⟩
  · intro body uuid att h
    simp [createCostCenter, h]
  · intro body att h
    simp [createCostCenter, h]
  · intro s body att h
    simp only [createCostCenter, if_neg h]

/-- C4 witness: the repository's test bodies — a matching conflict body in
mixed case recovers the UUID case-preserved, an unrelated 409 body and a
403 propagate as errors. -/
theorem c4_conflict_recovery_witness :
    createCostCenter
        (.apiError 409
          "Existing Cost Center UUID: A1B2C3D4-E5F6-7890-ABCD-EF1234567890" 1)
        id =
      .ok "A1B2C3D4-E5F6-7890-ABCD-EF1234567890" ∧
    createCostCenter (.apiError 409 "Some unrelated error message" 1) id =
      .error (409, "Some unrelated error message") ∧
    createCostCenter (.apiError 403 "forbidden" 1) id =
      .error (403, "forbidden") := by
  refine ⟨(c4_conflict_recovery id).1 _ _ 1 (by decide),
    (c4_conflict_recovery id).2.1 _ 1 (by decide),
    (c4_conflict_recovery id).2.2.1 403 "forbidden" 1 (by omega)⟩

/-- One-step unfolding of the paginator loop at positive fuel. -/
theorem paginateAux_succ {E α : Type} (fetch : Nat → Except E (List α))
    (size fuel page : Nat) (acc : List α) (reqs : Nat) :
    paginateAux fetch size (fuel + 1) page acc reqs =
      match fetch page with
      | .error e => some (.error e)
      | .ok items =>
        if items.length = 0 then some (.ok (acc, reqs + 1))
        else if items.length < size then some (.ok (acc ++ items, reqs + 1))
        else paginateAux fetch size fuel (page + 1) (acc ++ items) (reqs + 1) :=
  rfl

/-- A full page 1 followed by a short page 2 yields the concatenation of
the two pages in order, using exactly two page requests. -/
theorem paginate_two_pages {E α : Type} (fetch : Nat → Except E (List α))
    (l1 l2 : List α) (fuel : Nat) (h1 : fetch 1 = .ok l1)
    (hl1 : l1.length = perPage) (h2 : fetch 2 = .ok l2)
    (hl2 : l2.length < perPage) (hfuel : 2 ≤ fuel) :
    paginate fetch perPage fuel = some (.ok (l1 ++ l2, 2)) := by
  obtain ⟨k, hk⟩ := Nat.le.dest hfuel
  rw [paginate, show fuel = (k + 1) + 1 by omega, paginateAux_succ, h1]
  simp only
  rw [if_neg (by rw [hl1]; decide), if_neg (by omega), paginateAux_succ, h2]
  simp only
  by_cases h0 : l2.length = 0
  · rw [if_pos h0, List.length_eq_zero.mp h0, List.append_nil, List.nil_append]
  · rw [if_neg h0, if_pos hl2, List.nil_append]

/-- An empty page 1 yields an empty sequence using exactly one request. -/
theorem paginate_empty_first {E α : Type} (fetch : Nat → Except E (List α))
    (fuel : Nat) (h1 : fetch 1 = .ok ([] : List α)) (hfuel : 1 ≤ fuel) :
    paginate fetch perPage fuel = some (.ok (([] : List α), 1)) := by
  obtain ⟨k, hk⟩ := Nat.le.dest hfuel
  rw [paginate, show fuel = k + 1 by omega, paginateAux_succ, h1]
  simp

/-- C3: the paginator starts at page 1, stops at once on a zero-item page,
stops after appending a short page, and otherwise continues: a full page 1
plus a short page 2 yield `perPage + k` items in order with exactly 2 page
requests; an empty page 1 yields the empty sequence with exactly 1
request. -/
theorem c3_paginator_termination :
    (∀ {E α : Type} (fetch : Nat → Except E (List α)) (l1 l2 : List α)
      (fuel : Nat), fetch 1 = .ok l1 → l1.length = perPage →
      fetch 2 = .ok l2 → l2.length < perPage → 2 ≤ fuel →
      paginate fetch perPage fuel = some (.ok (l1 ++ l2, 2))) ∧
    (∀ {E α : Type} (fetch : Nat → Except E (List α)) (fuel : Nat),
      fetch 1 = .ok ([] : List α) → 1 ≤ fuel →
      paginate fetch perPage fuel = some (.ok (([] : List α), 1))) :=
  ⟨fun fetch l1 l2 fuel h1 hl1 h2 hl2 hfuel =>
      paginate_two_pages fetch l1 l2 fuel h1 hl1 h2 hl2 hfuel,
    fun fetch fuel h1 hfuel => paginate_empty_first fetch fuel h1 hfuel⟩

/-- C3 witness: a 100-item page 1 and a 3-item page 2 give 103 items in 2
requests; an endpoint whose first page is empty gives no items in 1
request. -/
theorem c3_paginator_termination_witness :
    paginate
        (fun p => if p = 1 then .ok (List.replicate 100 (0 : Nat))
          else if p = 2 then .ok [1, 2, 3] else (.ok [] : Except Unit (List Nat)))
        perPage 5 =
      some (.ok (List.replicate 100 (0 : Nat) ++ [1, 2, 3], 2)) ∧
    paginate (fun _ => (.ok [] : Except Unit (List Nat))) perPage 5 =
      some (.ok (([] : List Nat), 1)) :=
  ⟨c3_paginator_termination.1 _ (List.replicate 100 0) [1, 2, 3] 5 rfl
      (by decide) rfl (by decide) (by omega),
    c3_paginator_termination.2 _ 5 rfl (by omega)⟩

/-- If every page before page `page + n` is exactly full and the fetch of
page `page + n` ends in a terminal error, the loop surfaces that error. -/
theorem paginateAux_error_propagates {E α : Type}
    (fetch : Nat → Except E (List α)) (size : Nat) (hsz : 0 < size) (e : E) :
    ∀ (n fuel page : Nat) (acc : List α) (reqs : Nat),
      (∀ q, page ≤ q → q < page + n →
        ∃ items, fetch q = .ok items ∧ items.length = size) →
      fetch (page + n) = .error e → n < fuel →
      paginateAux fetch size fuel page acc reqs = some (.error e) := by
  intro n
  induction n with
  | zero =>
    intro fuel page acc reqs _ herr hfuel
    obtain ⟨f, rfl⟩ : ∃ f, fuel = f + 1 := ⟨fuel - 1, by omega⟩
    rw [paginateAux_succ, show page + 0 = page from rfl] at *
    rw [herr]
  | succ n ih =>
    intro fuel page acc reqs hfull herr hfuel
    obtain ⟨f, rfl⟩ : ∃ f, fuel = f + 1 := ⟨fuel - 1, by omega⟩
    obtain ⟨items, hfq, hlen⟩ := hfull page (le_refl page) (by omega)
    rw [paginateAux_succ, hfq]
    simp only
    rw [if_neg (by omega : ¬items.length = 0), if_neg (by omega : ¬items.length < size)]
    refine ih f (page + 1) (acc ++ items) (reqs + 1)
      (fun q hq1 hq2 => hfull q (by omega) (by omega)) ?_ (by omega)
    rw [show page + 1 + n = page + (n + 1) by omega]
    exact herr

/-- C8: if any page fetch of a paginated listing ends in a terminal error,
the listing call returns that error and no item sequence at all — the
items accumulated from the earlier full pages are discarded. -/
theorem c8_page_error_fails_listing {E α : Type}
    (fetch : Nat → Except E (List α)) (n fuel : Nat) (e : E)
    (hfull : ∀ q, 1 ≤ q → q < 1 + n →
      ∃ items, fetch q = .ok items ∧ items.length = perPage)
    (herr : fetch (1 + n) = .error e) (hfuel : n < fuel) :
    paginate fetch perPage fuel = some (.error e) :=
  paginateAux_error_propagates fetch perPage (by decide) e n fuel 1 [] 0
    hfull herr hfuel

/-- C8 witness: a full page 1 followed by a failing page 2 fails the whole
listing, returning the page-2 error rather than the 100 collected items. -/
theorem c8_page_error_fails_listing_witness :
    paginate
        (fun p => if p = 1 then .ok (List.replicate 100 (0 : Nat))
          else (.error "terminal page error" : Except String (List Nat)))
        perPage 5 =
      some (.error "terminal page error") := by
  refine c8_page_error_fails_listing _ 1 5 _ ?_ rfl (by omega)
  intro q h1 h2
  have hq : q = 1 := by omega
  subst hq
  exact ⟨List.replicate 100 0, rfl, by decide⟩

/-- One-step unfolding of the Copilot seats page loop at positive fuel. -/
theorem getCopilotUsersAux_succ {E : Type} (fetch : Nat → Except E SeatsResponse)
    (fuel page : Nat) (acc : List CopilotUser) :
    getCopilotUsersAux fetch (fuel + 1) page acc =
      match fetch page with
      | .error e => some (.error e)
      | .ok resp =>
        if resp.seats.length = 0 then some (.ok acc)
        else if resp.seats.length < perPage then
          some (.ok (acc ++ resp.seats.map seatToUser))
        else getCopilotUsersAux fetch fuel (page + 1)
          (acc ++ resp.seats.map seatToUser) :=
  rfl

/-- A full seats page 1 followed by a short page 2 make the loop collect
the converted concatenation of the two pages before deduplication. -/
theorem getCopilotUsersAux_two_pages {E : Type}
    (fetch : Nat → Except E SeatsResponse) (r1 r2 : SeatsResponse) (fuel : Nat)
    (h1 : fetch 1 = .ok r1) (hl1 : r1.seats.length = perPage)
    (h2 : fetch 2 = .ok r2) (hl2 : r2.seats.length < perPage) (hfuel : 2 ≤ fuel) :
    getCopilotUsersAux fetch fuel 1 [] =
      some (.ok ((r1.seats ++ r2.seats).map seatToUser)) := by
  obtain ⟨k, hk⟩ := Nat.le.dest hfuel
  rw [show fuel = (k + 1) + 1 by omega, getCopilotUsersAux_succ, h1]
  simp only
  rw [if_neg (by rw [hl1]; decide), if_neg (by omega), getCopilotUsersAux_succ, h2]
  simp only
  by_cases h0 : r2.seats.length = 0
  · rw [if_pos h0, List.length_eq_zero.mp h0, List.append_nil, List.nil_append]
  · rw [if_neg h0, if_pos hl2, List.nil_append, List.map_append]

/-- C9 counterexample: a single decoded page holding the same login twice
is not returned unmodified by `GetCopilotUsers` — the claim's "no further
transformation" fails on the Copilot seat-holder listing. -/
theorem c9_counterexample :
    GetCopilotUsers
        (fun _ => (.ok ⟨[mkSeat "alice", mkSeat "alice"], 2⟩ :
          Except Unit SeatsResponse)) 5 =
      some (.ok [mkUser "alice"]) ∧
    ([mkSeat "alice", mkSeat "alice"].map seatToUser ≠ [mkUser "alice"]) := by
  constructor
  · rfl
  · intro h
    simpa using congrArg List.length h

/-- C9 (amended): a paginated listing returns exactly the ordered
concatenation of its decoded pages — except the Copilot seat-holder
listing, which returns that concatenation deduplicated by login. -/
theorem c9_sequences_amended :
    (∀ {E α : Type} (fetch : Nat → Except E (List α)) (l1 l2 : List α)
      (fuel : Nat), fetch 1 = .ok l1 → l1.length = perPage →
      fetch 2 = .ok l2 → l2.length < perPage → 2 ≤ fuel →
      paginate fetch perPage fuel = some (.ok (l1 ++ l2, 2))) ∧
    (∀ {E : Type} (fetch : Nat → Except E SeatsResponse) (r1 r2 : SeatsResponse)
      (fuel : Nat), fetch 1 = .ok r1 → r1.seats.length = perPage →
      fetch 2 = .ok r2 → r2.seats.length < perPage → 2 ≤ fuel →
      GetCopilotUsers fetch fuel =
        some (.ok (deduplicateUsers ((r1.seats ++ r2.seats).map seatToUser)))) := by
  constructor
  · intro E α fetch l1 l2 fuel h1 hl1 h2 hl2 hfuel
    exact paginate_two_pages fetch l1 l2 fuel h1 hl1 h2 hl2 hfuel
  · intro E fetch r1 r2 fuel h1 hl1 h2 hl2 hfuel
    rw [GetCopilotUsers,
      getCopilotUsersAux_two_pages fetch r1 r2 fuel h1 hl1 h2 hl2 hfuel]

/-- C9 (amended) witness: concrete two-page teams and seats listings. -/
theorem c9_sequences_amended_witness :
    paginate
        (fun p => if p = 1 then .ok (List.replicate 100 "t")
          else (.ok ["u"] : Except Unit (List String)))
        perPage 4 =
      some (.ok (List.replicate 100 "t" ++ ["u"], 2)) ∧
    GetCopilotUsers
        (fun p => if p = 1 then .ok ⟨List.replicate 100 (mkSeat "bob"), 101⟩
          else (.ok ⟨[mkSeat "alice"], 101⟩ : Except Unit SeatsResponse)) 4 =
      some (.ok (deduplicateUsers
        ((List.replicate 100 (mkSeat "bob") ++ [mkSeat "alice"]).map seatToUser))) :=
  ⟨c9_sequences_amended.1 _ (List.replicate 100 "t") ["u"] 4 rfl (by decide)
      rfl (by decide) (by omega),
    c9_sequences_amended.2 _ ⟨List.replicate 100 (mkSeat "bob"), 101⟩
      ⟨[mkSeat "alice"], 101⟩ 4 rfl (by decide) rfl (by decide) (by omega)⟩

/-- Deduplication only removes entries: the output is a sublist of the
input, so the relative order of kept entries is preserved. -/
theorem dedupAux_sublist (us : List CopilotUser) :
    ∀ seen, (dedupAux seen us).Sublist us := by
  induction us with
  | nil => intro seen; simp [dedupAux]
  | cons v us ih =>
    intro seen
    simp only [dedupAux]
    split_ifs with h1 h2
    · exact (ih seen).cons v
    · exact (ih seen).cons v
    · exact (ih (v.login :: seen)).cons₂ v

/-- An entry kept by deduplication has a non-empty login not in `seen`. -/
theorem dedupAux_mem (us : List CopilotUser) :
    ∀ seen u, u ∈ dedupAux seen us →
      u.login ≠ "" ∧ seen.contains u.login = false := by
  induction us with
  | nil => intro seen u h; simp [dedupAux] at h
  | cons v us ih =>
    intro seen u h
    simp only [dedupAux] at h
    split_ifs at h with h1 h2
    · exact ih seen u h
    · exact ih seen u h
    · rcases List.mem_cons.mp h with rfl | hmem
      · refine ⟨fun he => h1 (by simp [he]), ?_⟩
        cases hb : seen.contains u.login
        · rfl
        · exact absurd hb h2
      · have hiv := ih (v.login :: seen) u hmem
        refine ⟨hiv.1, ?_⟩
        have hc := hiv.2
        rw [List.contains_cons] at hc
        exact (Bool.or_eq_false_iff.mp hc).2

/-- The logins of the deduplicated list are pairwise distinct. -/
theorem dedupAux_login_nodup (us : List CopilotUser) :
    ∀ seen, ((dedupAux seen us).map (fun u => u.login)).Nodup := by
  induction us with
  | nil => intro seen; simp [dedupAux]
  | cons v us ih =>
    intro seen
    simp only [dedupAux]
    split_ifs with h1 h2
    · exact ih seen
    · exact ih seen
    · simp only [List.map_cons, List.nodup_cons]
      refine ⟨fun hmem => ?_, ih (v.login :: seen)⟩
      obtain ⟨w, hw, hlw⟩ := List.mem_map.mp hmem
      have hc := (dedupAux_mem us (v.login :: seen) w hw).2
      rw [List.contains_cons] at hc
      have hwv := (Bool.or_eq_false_iff.mp hc).1
      rw [hlw] at hwv
      simp at hwv

/-- For a non-empty login not in `seen`, the first kept entry with that
login is the first input entry with that login. -/
theorem dedupAux_find (us : List CopilotUser) :
    ∀ seen (l : String), l ≠ "" → seen.contains l = false →
      (dedupAux seen us).find? (fun u => u.login == l) =
        us.find? (fun u => u.login == l) := by
  induction us with
  | nil => intro seen l _ _; rfl
  | cons v us ih =>
    intro seen l hl hseen
    simp only [dedupAux]
    split_ifs with h1 h2
    · have hv : v.login = "" := by simpa using h1
      have hvl : ¬((v.login == l) = true) := by
        simp only [hv, beq_iff_eq]
        exact fun he => hl he.symm
      have hstep : List.find? (fun u : CopilotUser => u.login == l) (v :: us) =
          List.find? (fun u : CopilotUser => u.login == l) us :=
        List.find?_cons_of_neg us hvl
      rw [hstep]
      exact ih seen l hl hseen
    · have hvl : ¬((v.login == l) = true) := by
        intro hb
        have hb2 : v.login = l := by simpa using hb
        rw [hb2] at h2
        rw [h2] at hseen
        exact Bool.true_eq_false.mp hseen
      have hstep : List.find? (fun u : CopilotUser => u.login == l) (v :: us) =
          List.find? (fun u : CopilotUser => u.login == l) us :=
        List.find?_cons_of_neg us hvl
      rw [hstep]
      exact ih seen l hl hseen
    · by_cases hvl : ((v.login == l) = true)
      · have hp1 : List.find? (fun u : CopilotUser => u.login == l)
            (v :: dedupAux (v.login :: seen) us) = some v :=
          List.find?_cons_of_pos _ hvl
        have hp2 : List.find? (fun u : CopilotUser => u.login == l) (v :: us) =
            some v :=
          List.find?_cons_of_pos us hvl
        rw [hp1, hp2]
      · have hn1 : List.find? (fun u : CopilotUser => u.login == l)
            (v :: dedupAux (v.login :: seen) us) =
            List.find? (fun u : CopilotUser => u.login == l)
              (dedupAux (v.login :: seen) us) :=
          List.find?_cons_of_neg _ hvl
        have hn2 : List.find? (fun u : CopilotUser => u.login == l) (v :: us) =
            List.find? (fun u : CopilotUser => u.login == l) us :=
          List.find?_cons_of_neg us hvl
        rw [hn1, hn2]
        refine ih (v.login :: seen) l hl ?_
        rw [List.contains_cons]
        have hlv : (l == v.login) = false := by
          simp only [beq_eq_false_iff_ne]
          intro he
          exact hvl (by simp [he])
        rw [hlv, hseen]
        rfl

/-- C10: `deduplicateUsers` drops every empty-login entry, keeps only the
first occurrence of each login preserving the relative order of kept
entries, and therefore every login in the result is non-empty and occurs
at most once. -/
theorem c10_deduplicate_users (us : List CopilotUser) :
    (deduplicateUsers us).Sublist us ∧
    (∀ u ∈ deduplicateUsers us, u.login ≠ "") ∧
    ((deduplicateUsers us).map (fun u => u.login)).Nodup ∧
    (∀ l : String, l ≠ "" →
      (deduplicateUsers us).find? (fun u => u.login == l) =
        us.find? (fun u => u.login == l)) :=
  ⟨dedupAux_sublist us [],
    fun u hu => (dedupAux_mem us [] u hu).1,
    dedupAux_login_nodup us [],
    fun l hl => dedupAux_find us [] l hl rfl⟩

/-- C10 witness: the repository's own test list — order preserved and the
first `bob` entry is the one kept. -/
theorem c10_deduplicate_users_witness :
    (deduplicateUsers [mkUser "alice", mkUser "bob", mkUser "alice",
        mkUser "", mkUser "charlie", mkUser "bob"]).Sublist
      [mkUser "alice", mkUser "bob", mkUser "alice",
        mkUser "", mkUser "charlie", mkUser "bob"] ∧
    (deduplicateUsers [mkUser "alice", mkUser "bob", mkUser "alice",
        mkUser "", mkUser "charlie", mkUser "bob"]).find?
        (fun u => u.login == "bob") =
      [mkUser "alice", mkUser "bob", mkUser "alice",
        mkUser "", mkUser "charlie", mkUser "bob"].find?
        (fun u => u.login == "bob") :=
  ⟨(c10_deduplicate_users _).1, (c10_deduplicate_users _).2.2.2 "bob" (by decide)⟩

end CostCenter
